import Mathlib

set_option maxRecDepth 16384

/-!
Verification of the trading-bot core (order pipeline, sniper engine,
copy-trade engine) against its natural-language specification.

The Python services are shallowly embedded: each service method becomes a
pure Lean function over an explicit state; floating-point amounts, prices
and timestamps are modelled as rationals; the protobuf enums use their wire
values (OrderStatus: PENDING = 0, EXECUTED = 1, FAILED = 2, CANCELLED = 3;
OrderType: BUY = 0, SELL = 1); external collaborators (risk manager, chain
client) are oracle parameters.
-/

namespace TradingBot

/-! ## Protobuf enum values -/

def PENDING : Nat := 0
def EXECUTED : Nat := 1
def FAILED : Nat := 2
def CANCELLED : Nat := 3
def BUY : Nat := 0
def SELL : Nat := 1

/-! ## Base-58 address validation

`_validate_token_mint` / `_validate_wallet_address` (identical bodies in
`trading_service.py`, `sniper_service.py`, `copy_trade_service.py`) check
`len(s) == 44` and then that `base58.b58decode(s)` does not raise.  The
decoder below follows the `base58` package: every character must be in the
Bitcoin base-58 alphabet; leading `'1'` characters become leading zero
bytes and the remainder is read as a big-endian base-58 number.
-/

def b58Alphabet : List Char :=
  "123456789ABCDEFGHJKLMNPQRSTUVWXYZabcdefghijkmnopqrstuvwxyz".data

def b58Digit (c : Char) : Option Nat :=
  b58Alphabet.findIdx? (fun a => a == c)

def b58Digits : List Char → Option (List Nat)
  | [] => some []
  | c :: cs =>
    match b58Digit c, b58Digits cs with
    | some d, some ds => some (d :: ds)
    | _, _ => none

/-- Big-endian base-256 digits of `n` (empty list for `0`); the first
argument is structural fuel, instantiated with `n` itself. -/
def natToBytesAux : Nat → Nat → List Nat
  | 0, _ => []
  | fuel + 1, n => if n = 0 then [] else natToBytesAux fuel (n / 256) ++ [n % 256]

def natToBytes (n : Nat) : List Nat := natToBytesAux n n

/-- `base58.b58decode`: `none` when some character is outside the alphabet,
otherwise the decoded bytes (as naturals `< 256`). -/
def b58decode (s : String) : Option (List Nat) :=
  match b58Digits s.data with
  | none => none
  | some ds =>
    let zeros := (ds.takeWhile (fun d => d == 0)).length
    let n := ds.foldl (fun acc d => acc * 58 + d) 0
    some (List.replicate zeros 0 ++ natToBytes n)

/-- A string that is the base-58 encoding of a 32-byte public key,
as the specification's address contract demands. -/
def decodesTo32Bytes (s : String) : Bool :=
  match b58decode s with
  | some b => b.length == 32
  | none => false

namespace TradingService

/-- `TradingService._validate_token_mint`. -/
def validate_token_mint (token_mint : String) : Bool :=
  if token_mint.length != 44 then false
  else (b58decode token_mint).isSome

/-- `TradingService._validate_wallet_address`. -/
def validate_wallet_address (wallet_address : String) : Bool :=
  if wallet_address.length != 44 then false
  else (b58decode wallet_address).isSome

end TradingService

namespace SniperService

/-- `SniperService._validate_wallet_address` (same body as the trading one). -/
def validate_wallet_address (wallet_address : String) : Bool :=
  if wallet_address.length != 44 then false
  else (b58decode wallet_address).isSome

/-- `SniperService._validate_token_mint` (same body as the trading one). -/
def validate_token_mint (token_mint : String) : Bool :=
  if token_mint.length != 44 then false
  else (b58decode token_mint).isSome

end SniperService

namespace CopyTradeService

/-- `CopyTradeService._validate_wallet_address` (same body as the trading one). -/
def validate_wallet_address (wallet_address : String) : Bool :=
  if wallet_address.length != 44 then false
  else (b58decode wallet_address).isSome

end CopyTradeService

/-! ## Sniper opportunity predicate -/

/-- The fields of the chain client's token-info dictionary that
`_is_good_opportunity` consults (`.get` defaults are the field values). -/
structure TokenInfo where
  price : ℚ
  liquidity : ℚ
  is_verified : Bool
  is_honeypot : Bool

namespace SniperService

/-- `SniperService._is_good_opportunity`. -/
def is_good_opportunity (token_info : TokenInfo) : Bool :=
  if token_info.liquidity < 1000 then false
  else if !token_info.is_verified then false
  else if token_info.is_honeypot then false
  else true

end SniperService

/-! ## Order model and trading-service state

`trading_pb2.Order` with its proto3 fields; unset fields default to zero
values.  The persistent store (`db_manager`) is a list of rows and the
Redis cache an association list; `_store_order` inserts into both,
`_update_order` runs the SQL `UPDATE ... SET status, executed_price,
executed_amount, signature WHERE order_id = ...` and overwrites the cache
entry, `_get_order` reads the cache first and caches a database hit.
-/

structure Order where
  order_id : String := ""
  token_mint : String := ""
  amount : ℚ := 0
  order_type : Nat := 0
  slippage : ℚ := 0
  priority_fee : ℚ := 0
  compute_unit_limit : Nat := 0
  cluster : Nat := 0
  wallet_address : String := ""
  status : Nat := 0
  timestamp : Int := 0
  executed_price : ℚ := 0
  executed_amount : ℚ := 0
  signature : String := ""
deriving DecidableEq

structure OrderResponse where
  success : Bool
  message : String
  order_id : String := ""
  signature : String := ""
  compute_units_used : Nat := 0
  total_cost : ℚ := 0
deriving DecidableEq

/-- Association-list read, first binding wins (Redis `get`). -/
def assocGet {α : Type} (l : List (String × α)) (k : String) : Option α :=
  (l.find? (fun p => p.1 == k)).map Prod.snd

/-- Association-list overwrite (Redis `set`). -/
def assocSet {α : Type} (l : List (String × α)) (k : String) (v : α) : List (String × α) :=
  (k, v) :: l.filter (fun p => p.1 != k)

structure TradingState where
  db : List Order
  cache : List (String × Order)
deriving DecidableEq

/-- `SELECT * FROM orders WHERE order_id = $1` (first matching row). -/
def dbFind (db : List Order) (order_id : String) : Option Order :=
  db.find? (fun o => o.order_id == order_id)

/-- Outcome of `RiskManager.check_order_risk` (external collaborator,
`utils/risk_manager.py` is not part of the sources). -/
inductive RiskResult where
  | allowed
  | denied (reason : String)
deriving DecidableEq

/-- Outcome of `_execute_order` / the chain client's settlement. -/
inductive ExecResult where
  | success (signature : String) (executed_price executed_amount : ℚ)
      (compute_units_used : Nat) (total_cost : ℚ)
  | failure (error : String)
deriving DecidableEq

namespace TradingService

structure ValidationResult where
  valid : Bool
  message : String

/-- `TradingService._validate_order`: token mint, then amount, then
slippage, then wallet address. -/
def validate_order (order : Order) : ValidationResult :=
  if !(validate_token_mint order.token_mint) then
    ⟨false, "Invalid token mint address"⟩
  else if order.amount ≤ 0 then
    ⟨false, "Amount must be positive"⟩
  else if order.slippage ≤ 0 ∨ order.slippage > 1/2 then
    ⟨false, "Slippage must be between 0 and 50%"⟩
  else if !(validate_wallet_address order.wallet_address) then
    ⟨false, "Invalid wallet address"⟩
  else
    ⟨true, "Order is valid"⟩

/-- `TradingService._store_order`: SQL INSERT plus cache write. -/
def store_order (st : TradingState) (o : Order) : TradingState :=
  { db := st.db ++ [o], cache := assocSet st.cache o.order_id o }

/-- The SQL `UPDATE orders SET status, executed_price, executed_amount,
signature WHERE order_id = ...` applied to one row. -/
def applyUpdate (o row : Order) : Order :=
  if row.order_id == o.order_id then
    { row with status := o.status, executed_price := o.executed_price,
               executed_amount := o.executed_amount, signature := o.signature }
  else row

/-- `TradingService._update_order`: SQL UPDATE plus cache overwrite. -/
def update_order (st : TradingState) (o : Order) : TradingState :=
  { db := st.db.map (applyUpdate o), cache := assocSet st.cache o.order_id o }

/-- `TradingService._get_order`: cache first, then the database (caching
the hit). -/
def get_order (st : TradingState) (order_id : String) : Option Order × TradingState :=
  match assocGet st.cache order_id with
  | some o => (some o, st)
  | none =>
    match dbFind st.db order_id with
    | some o => (some o, { st with cache := assocSet st.cache order_id o })
    | none => (none, st)

/-- `TradingService.PlaceOrder`.  The generated uuid and creation
timestamp are parameters; the risk decision and the settlement outcome are
oracle parameters standing for the external collaborators. -/
def PlaceOrder (st : TradingState) (request : Order) (order_id : String) (ts : Int)
    (risk : RiskResult) (exec : ExecResult) : OrderResponse × TradingState :=
  let req : Order := { request with order_id := order_id, timestamp := ts, status := PENDING }
  let v := validate_order req
  if !v.valid then
    ({ success := false, message := v.message }, st)
  else
    match risk with
    | .denied reason =>
      ({ success := false, message := "Risk limit exceeded: " ++ reason }, st)
    | .allowed =>
      let st1 := store_order st req
      match exec with
      | .success sig price amt cu cost =>
        let req2 : Order :=
          { req with
            status := EXECUTED, signature := sig,
            executed_price := price, executed_amount := amt }
        ({ success := true, message := "Order executed successfully",
           order_id := order_id, signature := sig,
           compute_units_used := cu, total_cost := cost }, update_order st1 req2)
      | .failure err =>
        let req2 : Order := { req with status := FAILED }
        ({ success := false, message := "Order execution failed: " ++ err },
         update_order st1 req2)

/-- `TradingService.CancelOrder`; `_cancel_order_on_solana` always
returns success in the source. -/
def CancelOrder (st : TradingState) (order_id : String) : OrderResponse × TradingState :=
  match get_order st order_id with
  | (none, st1) => ({ success := false, message := "Order not found" }, st1)
  | (some o, st1) =>
    if o.status != PENDING then
      ({ success := false, message := "Order cannot be cancelled" }, st1)
    else
      let o2 : Order := { o with status := CANCELLED }
      ({ success := true, message := "Order cancelled successfully" },
       update_order st1 o2)

/-- The WHERE clause `_get_orders` builds: wallet always, status only when
it is nonzero (`# Not PENDING`), the time bounds only when positive. -/
def rowMatches (wallet_address : String) (status : Nat) (start_time end_time : Int)
    (o : Order) : Bool :=
  (o.wallet_address == wallet_address)
  && (status == 0 || o.status == status)
  && (start_time ≤ 0 || o.timestamp ≥ start_time)
  && (end_time ≤ 0 || o.timestamp ≤ end_time)

/-- Insertion into a timestamp-descending list (`ORDER BY timestamp DESC`). -/
def insertByTs (o : Order) : List Order → List Order
  | [] => [o]
  | x :: xs => if o.timestamp ≤ x.timestamp then x :: insertByTs o xs else o :: x :: xs

def sortByTsDesc (l : List Order) : List Order := l.foldr insertByTs []

/-- SQL `LIMIT`/`OFFSET`, each applied only when positive. -/
def paginate (limit offset : Nat) (l : List Order) : List Order :=
  let l2 := if 0 < offset then l.drop offset else l
  if 0 < limit then l2.take limit else l2

/-- `TradingService._get_orders` (also the body of the `GetOrders` RPC). -/
def get_orders (db : List Order) (wallet_address : String) (status : Nat)
    (start_time end_time : Int) (limit offset : Nat) : List Order :=
  paginate limit offset
    (sortByTsDesc (db.filter (rowMatches wallet_address status start_time end_time)))

/-- One loop iteration of `_calculate_profit_loss`:
accumulator is `(total_profit, total_invested)`. -/
def profit_step (acc : ℚ × ℚ) (o : Order) : ℚ × ℚ :=
  if o.order_type = BUY then (acc.1, acc.2 + o.executed_amount * o.executed_price)
  else if o.order_type = SELL then
    (acc.1 + o.executed_amount * o.executed_price - acc.2, acc.2)
  else acc

/-- `TradingService._calculate_profit_loss` on the wallet's executed
orders, returning `(total_profit, total_profit_percentage)`. -/
def calculate_profit_loss (db : List Order) (wallet_address : String) : ℚ × ℚ :=
  let orders := get_orders db wallet_address EXECUTED 0 0 0 0
  let r := orders.foldl profit_step (0, 0)
  (r.1, if r.2 > 0 then r.1 / r.2 * 100 else 0)

/-- The total invested amount the loop accumulates for a wallet. -/
def total_invested (db : List Order) (wallet_address : String) : ℚ :=
  ((get_orders db wallet_address EXECUTED 0 0 0 0).foldl profit_step (0, 0)).2

end TradingService

/-! ## Sniper engine registry -/

/-- The per-session dictionary `active_snipers[sniper_id]` (the fields the
claims touch; counters and flags as in `StartSniper`). -/
structure SniperConfig where
  sniper_id : String
  wallet_address : String
  private_key : String
  target_tokens : List String
  buy_amount : ℚ
  max_slippage : ℚ
  profit_target : ℚ
  stop_loss : ℚ
  auto_sell : Bool
  is_running : Bool
  successful_snipes : Nat
  failed_snipes : Nat
  total_profit : ℚ
deriving DecidableEq

/-- The request message `trading_pb2.SniperConfig` consumed by `StartSniper`. -/
structure SniperStartRequest where
  wallet_address : String := ""
  private_key : String := ""
  target_tokens : List String := []
  buy_amount : ℚ := 0
  max_slippage : ℚ := 0
  profit_target : ℚ := 0
  stop_loss : ℚ := 0
  auto_sell : Bool := false
deriving DecidableEq

structure SniperResponse where
  success : Bool
  message : String
  sniper_id : String := ""
deriving DecidableEq

/-- `self.active_snipers` dictionary. -/
abbrev SniperRegistry := List (String × SniperConfig)

namespace SniperService

/-- `SniperService.StartSniper` (the generated uuid is a parameter; the
database write has no effect on the registry). -/
def StartSniper (reg : SniperRegistry) (request : SniperStartRequest)
    (sniper_id : String) : SniperResponse × SniperRegistry :=
  if !(validate_wallet_address request.wallet_address) then
    ({ success := false, message := "Invalid wallet address" }, reg)
  else
    let cfg : SniperConfig :=
      { sniper_id := sniper_id,
        wallet_address := request.wallet_address,
        private_key := request.private_key,
        target_tokens := request.target_tokens,
        buy_amount := request.buy_amount,
        max_slippage := request.max_slippage,
        profit_target := request.profit_target,
        stop_loss := request.stop_loss,
        auto_sell := request.auto_sell,
        is_running := true,
        successful_snipes := 0,
        failed_snipes := 0,
        total_profit := 0 }
    ({ success := true, message := "Sniper started successfully", sniper_id := sniper_id },
     assocSet reg sniper_id cfg)

/-- `SniperService.AddTargetToken`: validates the mint and appends it to
the session's target list. -/
def AddTargetToken (reg : SniperRegistry) (sniper_id token_mint : String) :
    SniperResponse × SniperRegistry :=
  match assocGet reg sniper_id with
  | none => ({ success := false, message := "Sniper not found" }, reg)
  | some cfg =>
    if !(validate_token_mint token_mint) then
      ({ success := false, message := "Invalid token mint address" }, reg)
    else
      let cfg2 : SniperConfig := { cfg with target_tokens := cfg.target_tokens ++ [token_mint] }
      ({ success := true, message := "Target token added successfully" },
       assocSet reg sniper_id cfg2)

/-- `SniperService.RemoveTargetToken`: drops the first occurrence when
present. -/
def RemoveTargetToken (reg : SniperRegistry) (sniper_id token_mint : String) :
    SniperResponse × SniperRegistry :=
  match assocGet reg sniper_id with
  | none => ({ success := false, message := "Sniper not found" }, reg)
  | some cfg =>
    let cfg2 : SniperConfig :=
      if token_mint ∈ cfg.target_tokens then
        { cfg with target_tokens := cfg.target_tokens.erase token_mint }
      else cfg
    ({ success := true, message := "Target token removed successfully" },
     assocSet reg sniper_id cfg2)

end SniperService

/-! ## Copy-trade engine -/

/-- The per-session dictionary `active_copy_traders[copy_trade_id]`. -/
structure CopyTradeConfig where
  copy_trade_id : String
  source_wallet : String
  target_wallet : String
  private_key : String
  allocation_percentage : ℚ
  max_position_size : ℚ
  min_trade_amount : ℚ
  max_trades_per_hour : Nat
  is_running : Bool
  copied_trades : Nat
  total_profit : ℚ
  trades_this_hour : Nat
  last_trade_time : ℚ
deriving DecidableEq

/-- One entry of the source wallet's recent-trade stream. -/
structure SourceTrade where
  timestamp : ℚ := 0
  amount : ℚ := 0
  token_mint : String := ""
  order_type : Nat := 0
  signature : String := ""
deriving DecidableEq

/-- A call the engine makes to `solana_manager.execute_swap`. -/
structure SwapCall where
  token_mint : String
  amount : ℚ
  slippage : ℚ
  wallet_address : String
  is_sell : Bool
deriving DecidableEq

/-- A row of `copy_trade_records`. -/
structure CopyTradeRecord where
  copy_trade_id : String
  source_wallet : String
  target_wallet : String
  token_mint : String
  amount : ℚ
  order_type : Nat
  signature : String
  timestamp : ℚ
  success : Bool
deriving DecidableEq

/-- Outcome of the chain client's `execute_swap`. -/
inductive SwapResult where
  | success (signature : String)
  | failure (error : String)
deriving DecidableEq

/-- A copy-trade session together with the observable side effects of the
engine: swaps submitted to the chain client and record rows written. -/
structure CopyTradeState where
  cfg : CopyTradeConfig
  swaps : List SwapCall
  records : List CopyTradeRecord
deriving DecidableEq

namespace CopyTradeService

/-- `CopyTradeService._should_copy_trade`: replay check, rolling-hour cap
(with counter reset when the hour has elapsed — the reset survives even if
the minimum-amount check then rejects), minimum amount.  Returns the
decision and the possibly-reset session config. -/
def should_copy_trade (cfg : CopyTradeConfig) (trade : SourceTrade)
    (current_time : ℚ) : Bool × CopyTradeConfig :=
  if trade.timestamp ≤ cfg.last_trade_time then (false, cfg)
  else if current_time - cfg.last_trade_time < 3600 then
    if cfg.trades_this_hour ≥ cfg.max_trades_per_hour then (false, cfg)
    else if trade.amount < cfg.min_trade_amount then (false, cfg)
    else (true, cfg)
  else
    let cfg2 : CopyTradeConfig := { cfg with trades_this_hour := 0 }
    if trade.amount < cfg2.min_trade_amount then (false, cfg2)
    else (true, cfg2)

/-- `CopyTradeService._copy_trade`: scales the original amount by the
allocation percentage, caps it at the maximum position size, submits the
swap (5% fixed slippage), writes a record either way, and on success
advances the counters and the last-trade timestamp. -/
def copy_trade (st : CopyTradeState) (trade : SourceTrade) (result : SwapResult)
    (now : ℚ) : CopyTradeState :=
  let cfg := st.cfg
  let original_amount := trade.amount
  let copy_amount := original_amount * cfg.allocation_percentage
  let copy_amount := if copy_amount > cfg.max_position_size then cfg.max_position_size
                     else copy_amount
  let swap : SwapCall :=
    { token_mint := trade.token_mint, amount := copy_amount, slippage := 5/100,
      wallet_address := cfg.target_wallet, is_sell := trade.order_type == 1 }
  match result with
  | .success sig =>
    let record : CopyTradeRecord :=
      { copy_trade_id := cfg.copy_trade_id, source_wallet := cfg.source_wallet,
        target_wallet := cfg.target_wallet, token_mint := trade.token_mint,
        amount := copy_amount, order_type := trade.order_type,
        signature := sig, timestamp := now, success := true }
    { cfg :=
        { cfg with
          copied_trades := cfg.copied_trades + 1,
          trades_this_hour := cfg.trades_this_hour + 1,
          last_trade_time := now },
      swaps := st.swaps ++ [swap],
      records := st.records ++ [record] }
  | .failure _ =>
    let record : CopyTradeRecord :=
      { copy_trade_id := cfg.copy_trade_id, source_wallet := cfg.source_wallet,
        target_wallet := cfg.target_wallet, token_mint := trade.token_mint,
        amount := copy_amount, order_type := trade.order_type,
        signature := "", timestamp := now, success := false }
    { cfg := cfg,
      swaps := st.swaps ++ [swap],
      records := st.records ++ [record] }

/-- One trade of the `_check_source_wallet_trades` loop body: admission
check, then replication only when admitted. -/
def process_trade (st : CopyTradeState) (trade : SourceTrade) (result : SwapResult)
    (now : ℚ) : CopyTradeState :=
  let d := should_copy_trade st.cfg trade now
  let st2 : CopyTradeState := { st with cfg := d.2 }
  if d.1 then copy_trade st2 trade result now else st2

end CopyTradeService

/-! ## Order lifecycle transition system

The operations of the trading service that touch stored orders, as one
step type, used to state the status-transition invariant.
-/

inductive TradingOp where
  | place (request : Order) (order_id : String) (ts : Int)
      (risk : RiskResult) (exec : ExecResult)
  | cancel (order_id : String)

def applyOp : TradingOp → TradingState → OrderResponse × TradingState
  | .place req oid ts risk exec, st => TradingService.PlaceOrder st req oid ts risk exec
  | .cancel oid, st => TradingService.CancelOrder st oid

/-- Status of the first stored row with the given id. -/
def statusInDb (st : TradingState) (order_id : String) : Option Nat :=
  (dbFind st.db order_id).map Order.status

/-- Status of the cached copy with the given key. -/
def statusInCache (st : TradingState) (order_id : String) : Option Nat :=
  (assocGet st.cache order_id).map Order.status

/-- Cache coherence: every cache entry is keyed by its order's id and
mirrors the stored row, as the write-through code maintains. -/
def coherent (st : TradingState) : Prop :=
  ∀ k o, assocGet st.cache k = some o → o.order_id = k ∧ dbFind st.db k = some o

/-- The generated uuid of a placed order is fresh (uuid4 in the source);
cancellation needs no such side condition. -/
def opFresh : TradingOp → TradingState → Prop
  | .place _ oid _ _ _, st => statusInDb st oid = none ∧ statusInCache st oid = none
  | .cancel _, _ => True

/-! ## Concrete inputs used by counterexamples and witnesses -/

/-- Forty-four `'1'` characters: length-44, every character in the
base-58 alphabet, but the decoded payload is 44 zero bytes, not 32. -/
def ones44 : String := String.mk (List.replicate 44 '1')

def sniperReq1 : SniperStartRequest := { wallet_address := ones44 }

def sniperReg0 : SniperRegistry := (SniperService.StartSniper [] sniperReq1 "s1").2

def sniperReg1 : SniperRegistry := (SniperService.AddTargetToken sniperReg0 "s1" ones44).2

def sniperReg2 : SniperRegistry := (SniperService.AddTargetToken sniperReg1 "s1" ones44).2

/-- Spec scenario B: an otherwise well-formed order whose slippage 0.6
lies outside (0, 0.5]. -/
def orderReq1 : Order :=
  { token_mint := ones44, amount := 1, slippage := 6/10, wallet_address := ones44 }

/-- A stored pending order row. -/
def orderRowP : Order :=
  { order_id := "a", wallet_address := "w", status := 0, timestamp := 1 }

/-- A stored executed order row. -/
def orderRowE : Order :=
  { order_id := "b", wallet_address := "w", status := 1, timestamp := 2 }

/-- The session `StartSniper` builds from `sniperReq1` after one target
token has been added. -/
def sniperCfg1 : SniperConfig :=
  { sniper_id := "s1", wallet_address := ones44, private_key := "",
    target_tokens := [ones44], buy_amount := 0, max_slippage := 0,
    profit_target := 0, stop_loss := 0, auto_sell := false, is_running := true,
    successful_snipes := 0, failed_snipes := 0, total_profit := 0 }

def copyCfg1 : CopyTradeConfig :=
  { copy_trade_id := "c1", source_wallet := ones44, target_wallet := ones44,
    private_key := "", allocation_percentage := 1/10, max_position_size := 100,
    min_trade_amount := 1, max_trades_per_hour := 2, is_running := true,
    copied_trades := 0, total_profit := 0, trades_this_hour := 2,
    last_trade_time := 1000 }

def copyState1 : CopyTradeState := { cfg := copyCfg1, swaps := [], records := [] }

/-! # Theorems -/

/-- **C3** For every token-info record, the sniper opportunity predicate
returns false when liquidity is below the minimum threshold (1000), false
when the token is not marked verified, false when it is flagged as a
honeypot, and true for every token passing all three checks. -/
theorem sniper_opportunity_predicate (t : TokenInfo) :
    (t.liquidity < 1000 → SniperService.is_good_opportunity t = false)
    ∧ (t.is_verified = false → SniperService.is_good_opportunity t = false)
    ∧ (t.is_honeypot = true → SniperService.is_good_opportunity t = false)
    ∧ (1000 ≤ t.liquidity → t.is_verified = true → t.is_honeypot = false →
        SniperService.is_good_opportunity t = true) := by
  unfold SniperService.is_good_opportunity
  refine ⟨fun h => ?_, fun h => ?_, fun h => ?_, fun h1 h2 h3 => ?_⟩
  · rw [if_pos h]
  · simp [h]
  · simp [h]
  · rw [if_neg (not_lt.mpr h1)]
    simp [h2, h3]

/-- Witness for C3 at two concrete tokens. -/
theorem sniper_opportunity_predicate_witness :
    SniperService.is_good_opportunity ⟨1, 2000, true, false⟩ = true
    ∧ SniperService.is_good_opportunity ⟨1, 500, true, false⟩ = false :=
  ⟨(sniper_opportunity_predicate ⟨1, 2000, true, false⟩).2.2.2 (by decide) rfl rfl,
   (sniper_opportunity_predicate ⟨1, 500, true, false⟩).1 (by decide)⟩

/-- **C4** With the rolling-hour counter at the configured cap, a trade at
current time before `last_trade_time + 3600` is rejected; a trade at or
after that instant is admitted (the counter resetting to zero) provided it
passes the replay and minimum-amount checks. -/
theorem copy_trade_rolling_hour (cfg : CopyTradeConfig) (trade : SourceTrade) (now : ℚ)
    (hcap : cfg.trades_this_hour = cfg.max_trades_per_hour) :
    (now < cfg.last_trade_time + 3600 →
        (CopyTradeService.should_copy_trade cfg trade now).1 = false)
    ∧ (cfg.last_trade_time + 3600 ≤ now →
        cfg.last_trade_time < trade.timestamp →
        cfg.min_trade_amount ≤ trade.amount →
        (CopyTradeService.should_copy_trade cfg trade now).1 = true
        ∧ (CopyTradeService.should_copy_trade cfg trade now).2.trades_this_hour = 0) := by
  unfold CopyTradeService.should_copy_trade
  constructor
  · intro hwin
    split_ifs <;> first | rfl | omega | linarith
  · intro hge hreplay hamt
    dsimp only
    split_ifs <;> first | exact ⟨rfl, rfl⟩ | omega | linarith

/-- Witness for C4: counter at the cap of 2, last trade at time 1000; a
trade at time 5000 is admitted with the counter reset, one at 1500 is
rejected. -/
theorem copy_trade_rolling_hour_witness :
    (CopyTradeService.should_copy_trade copyCfg1 ⟨1001, 5, "", 0, ""⟩ 5000).1 = true
    ∧ (CopyTradeService.should_copy_trade copyCfg1 ⟨1001, 5, "", 0, ""⟩ 5000).2.trades_this_hour = 0
    ∧ (CopyTradeService.should_copy_trade copyCfg1 ⟨1001, 5, "", 0, ""⟩ 1500).1 = false :=
  ⟨((copy_trade_rolling_hour copyCfg1 ⟨1001, 5, "", 0, ""⟩ 5000 rfl).2
      (by norm_num [copyCfg1]) (by norm_num [copyCfg1]) (by norm_num [copyCfg1])).1,
   ((copy_trade_rolling_hour copyCfg1 ⟨1001, 5, "", 0, ""⟩ 5000 rfl).2
      (by norm_num [copyCfg1]) (by norm_num [copyCfg1]) (by norm_num [copyCfg1])).2,
   (copy_trade_rolling_hour copyCfg1 ⟨1001, 5, "", 0, ""⟩ 1500 rfl).1 (by norm_num [copyCfg1])⟩

/-- **C5** A source-wallet trade whose timestamp is at most the session's
last-copied timestamp is never replicated: the processing step leaves the
session, the swap list and the record list untouched. -/
theorem copy_trade_replay_never_replicated (st : CopyTradeState) (trade : SourceTrade)
    (result : SwapResult) (now : ℚ)
    (h : trade.timestamp ≤ st.cfg.last_trade_time) :
    CopyTradeService.process_trade st trade result now = st := by
  unfold CopyTradeService.process_trade CopyTradeService.should_copy_trade
  rw [if_pos h]
  rfl

/-- Witness for C5 at a concrete stale trade. -/
theorem copy_trade_replay_witness :
    CopyTradeService.process_trade copyState1 ⟨900, 5, "", 0, ""⟩ (.success "sig") 2000
      = copyState1 :=
  copy_trade_replay_never_replicated copyState1 ⟨900, 5, "", 0, ""⟩ (.success "sig") 2000
    (by decide)

/-- **C6** Every replication submits to the chain client, and writes into
the copy-trade record, exactly `min (original × allocation, maxPosition)`. -/
theorem copy_amount_is_min (st : CopyTradeState) (trade : SourceTrade)
    (result : SwapResult) (now : ℚ) :
    ((CopyTradeService.copy_trade st trade result now).swaps.map SwapCall.amount
        = st.swaps.map SwapCall.amount
          ++ [min (trade.amount * st.cfg.allocation_percentage) st.cfg.max_position_size])
    ∧ ((CopyTradeService.copy_trade st trade result now).records.map CopyTradeRecord.amount
        = st.records.map CopyTradeRecord.amount
          ++ [min (trade.amount * st.cfg.allocation_percentage) st.cfg.max_position_size]) := by
  have hmin : ∀ a M : ℚ, (if a > M then M else a) = min a M := by
    intro a M
    rcases le_or_lt a M with h | h
    · rw [if_neg (not_lt.mpr h), min_eq_left h]
    · rw [if_pos h, min_eq_right h.le]
  cases result <;> simp [CopyTradeService.copy_trade, hmin]

/-- **C9** When a wallet's executed-order history accumulates a total
invested amount of zero, the profit/loss computation reports a profit
percentage of exactly 0 instead of dividing by zero. -/
theorem profit_loss_zero_invested (db : List Order) (w : String)
    (h : TradingService.total_invested db w = 0) :
    (TradingService.calculate_profit_loss db w).2 = 0 := by
  have e : (TradingService.calculate_profit_loss db w).2
      = if TradingService.total_invested db w > 0
        then ((TradingService.get_orders db w EXECUTED 0 0 0 0).foldl
                TradingService.profit_step (0, 0)).1 / TradingService.total_invested db w * 100
        else 0 := rfl
  rw [e, h]
  norm_num

/-- Witness for C9: the empty order history invests zero and reports 0%. -/
theorem profit_loss_zero_invested_witness :
    TradingService.total_invested [] "w" = 0
    ∧ (TradingService.calculate_profit_loss [] "w").2 = 0 :=
  ⟨by decide, profit_loss_zero_invested [] "w" (by decide)⟩

/-! ## Shared helper lemmas -/

theorem b58Digits_isSome (l : List Char) :
    (b58Digits l).isSome = true ↔ ∀ c ∈ l, (b58Digit c).isSome = true := by
  induction l with
  | nil => simp [b58Digits]
  | cons c cs ih =>
    simp only [b58Digits]
    cases hd : b58Digit c <;> cases hds : b58Digits cs <;>
      simp_all [List.forall_mem_cons]

theorem b58decode_isSome (s : String) :
    (b58decode s).isSome = (b58Digits s.data).isSome := by
  unfold b58decode
  cases h : b58Digits s.data <;> simp [h]

theorem assocGet_assocSet_self {α : Type} (l : List (String × α)) (k : String) (v : α) :
    assocGet (assocSet l k v) k = some v := by
  simp [assocGet, assocSet]

theorem find?_filter_ne {α : Type} (l : List (String × α)) (k k2 : String) (h : k2 ≠ k) :
    (l.filter (fun p => p.1 != k)).find? (fun p => p.1 == k2)
      = l.find? (fun p => p.1 == k2) := by
  induction l with
  | nil => rfl
  | cons a t ih =>
    by_cases ha : a.1 = k
    · have hb : (a.1 != k) = false := by simp [ha]
      have hk2 : (k == k2) = false := by
        simp
        exact fun e => h e.symm
      simp [List.filter_cons, hb, List.find?_cons, ha, hk2, ih]
    · have hb : (a.1 != k) = true := by simp [ha]
      by_cases hk2 : a.1 = k2
      · have hk2b : (a.1 == k2) = true := by simp [hk2]
        simp [List.filter_cons, hb, List.find?_cons, hk2b]
      · have hk2b : (a.1 == k2) = false := by simp [hk2]
        simp [List.filter_cons, hb, List.find?_cons, hk2b, ih]

theorem assocGet_assocSet_ne {α : Type} (l : List (String × α)) (k k2 : String) (v : α)
    (h : k2 ≠ k) : assocGet (assocSet l k v) k2 = assocGet l k2 := by
  unfold assocGet assocSet
  have hk : (k == k2) = false := by
    simp
    exact fun e => h e.symm
  simp [List.find?_cons, hk, find?_filter_ne l k k2 h]

/-! ## C7: address validation versus the 32-byte contract -/

/-- **C7 counterexample** The claim "accepts iff the string base-58
decodes to a 32-byte public key" is false: forty-four `'1'` characters
pass every validator in the source, yet decode to 44 zero bytes. -/
theorem address_validation_32byte_counterexample :
    TradingService.validate_token_mint ones44 = true
    ∧ TradingService.validate_wallet_address ones44 = true
    ∧ SniperService.validate_wallet_address ones44 = true
    ∧ SniperService.validate_token_mint ones44 = true
    ∧ CopyTradeService.validate_wallet_address ones44 = true
    ∧ decodesTo32Bytes ones44 = false := by
  decide

/-- **C7 amended** Every validator used by order placement, sniper start,
target-token addition and copy-trade start accepts a string exactly when
it has length 44 and all its characters lie in the base-58 alphabet; the
decoded byte-length is never inspected, so acceptance is not equivalent to
being a 32-byte key. -/
theorem address_validation_amended (s : String) :
    (TradingService.validate_token_mint s = true ↔
        s.length = 44 ∧ ∀ c ∈ s.data, (b58Digit c).isSome = true)
    ∧ TradingService.validate_wallet_address s = TradingService.validate_token_mint s
    ∧ SniperService.validate_wallet_address s = TradingService.validate_token_mint s
    ∧ SniperService.validate_token_mint s = TradingService.validate_token_mint s
    ∧ CopyTradeService.validate_wallet_address s = TradingService.validate_token_mint s := by
  refine ⟨?_, rfl, rfl, rfl, rfl⟩
  unfold TradingService.validate_token_mint
  by_cases hl : s.length = 44
  · simp [hl, b58decode_isSome, b58Digits_isSome]
  · simp [hl]

/-! ## C8: target-token uniqueness -/

/-- **C8 counterexample** Starting a sniper and adding the same (valid)
mint twice leaves the session's target collection with a duplicate entry,
so target-token membership is not unique. -/
theorem sniper_duplicate_target_counterexample :
    ((assocGet sniperReg2 "s1").map SniperConfig.target_tokens) = some [ones44, ones44]
    ∧ ¬ ([ones44, ones44] : List String).Nodup := by
  constructor
  · decide
  · simp

/-- **C8 amended** `AddTargetToken` appends a valid mint to the session's
target list unconditionally, with no duplicate check: the target
collection is a list that can contain the same mint twice, and uniqueness
holds only for operation sequences that never add an already-present
mint. -/
theorem sniper_add_target_appends (reg : SniperRegistry) (sid mint : String)
    (cfg : SniperConfig) (hcfg : assocGet reg sid = some cfg)
    (hv : SniperService.validate_token_mint mint = true) :
    assocGet (SniperService.AddTargetToken reg sid mint).2 sid
      = some { cfg with target_tokens := cfg.target_tokens ++ [mint] } := by
  unfold SniperService.AddTargetToken
  simp only [hcfg, hv]
  simpa using assocGet_assocSet_self reg sid
    { cfg with target_tokens := cfg.target_tokens ++ [mint] }

/-- Witness for the amended C8 at the concrete duplicated add. -/
theorem sniper_add_target_appends_witness :
    assocGet (SniperService.AddTargetToken sniperReg1 "s1" ones44).2 "s1"
      = some { sniperCfg1 with target_tokens := sniperCfg1.target_tokens ++ [ones44] } :=
  sniper_add_target_appends sniperReg1 "s1" ones44 sniperCfg1 (by decide) (by decide)

/-! ## C1: rejected orders are never persisted -/

theorem validate_order_fails (o : Order)
    (h : o.amount ≤ 0 ∨ o.slippage ≤ 0 ∨ o.slippage > 1/2
        ∨ TradingService.validate_token_mint o.token_mint = false
        ∨ TradingService.validate_wallet_address o.wallet_address = false) :
    (TradingService.validate_order o).valid = false
    ∧ (TradingService.validate_order o).message ≠ "" := by
  unfold TradingService.validate_order
  split_ifs with h1 h2 h3 h4
  · exact ⟨rfl, by decide⟩
  · exact ⟨rfl, by decide⟩
  · exact ⟨rfl, by decide⟩
  · exact ⟨rfl, by decide⟩
  · exfalso
    rcases h with h | h | h | h | h
    · exact h2 h
    · exact h3 (Or.inl h)
    · exact h3 (Or.inr h)
    · simp [h] at h1
    · simp [h] at h4

theorem validate_order_invalid_message (o : Order)
    (h : (TradingService.validate_order o).valid = false) :
    (TradingService.validate_order o).message ≠ "" := by
  unfold TradingService.validate_order at h ⊢
  split_ifs at h ⊢ <;> decide

theorem PlaceOrder_invalid (st : TradingState) (req : Order) (oid : String) (ts : Int)
    (risk : RiskResult) (exec : ExecResult)
    (h : (TradingService.validate_order
        { req with order_id := oid, timestamp := ts, status := PENDING }).valid = false) :
    TradingService.PlaceOrder st req oid ts risk exec
      = ({ success := false,
           message := (TradingService.validate_order
             { req with order_id := oid, timestamp := ts, status := PENDING }).message }, st) := by
  unfold TradingService.PlaceOrder
  simp [h]

theorem PlaceOrder_denied (st : TradingState) (req : Order) (oid : String) (ts : Int)
    (exec : ExecResult) (r : String)
    (h : (TradingService.validate_order
        { req with order_id := oid, timestamp := ts, status := PENDING }).valid = true) :
    TradingService.PlaceOrder st req oid ts (.denied r) exec
      = ({ success := false, message := "Risk limit exceeded: " ++ r }, st) := by
  unfold TradingService.PlaceOrder
  simp [h]

theorem risk_message_ne_empty (r : String) :
    ("Risk limit exceeded: " ++ r) ≠ "" := by
  intro h
  have hd := congrArg String.data h
  rw [String.data_append] at hd
  rcases List.append_eq_nil.mp hd with ⟨h1, h2⟩
  exact absurd h1 (by decide)

/-- **C1** Every order request failing structural validation (non-positive
amount, slippage outside (0, 0.5], invalid mint or wallet address) or
denied by the risk evaluator gets a failure response with a nonempty
reason, and the state — order rows and cache — is exactly unchanged. -/
theorem place_order_rejected_not_persisted (st : TradingState) (req : Order)
    (oid : String) (ts : Int) (risk : RiskResult) (exec : ExecResult)
    (h : req.amount ≤ 0 ∨ req.slippage ≤ 0 ∨ req.slippage > 1/2
        ∨ TradingService.validate_token_mint req.token_mint = false
        ∨ TradingService.validate_wallet_address req.wallet_address = false
        ∨ (∃ r, risk = RiskResult.denied r)) :
    (TradingService.PlaceOrder st req oid ts risk exec).1.success = false
    ∧ (TradingService.PlaceOrder st req oid ts risk exec).1.message ≠ ""
    ∧ (TradingService.PlaceOrder st req oid ts risk exec).2 = st := by
  by_cases hval : (TradingService.validate_order
      { req with order_id := oid, timestamp := ts, status := PENDING }).valid = false
  · rw [PlaceOrder_invalid st req oid ts risk exec hval]
    exact ⟨rfl, validate_order_invalid_message _ hval, rfl⟩
  · have hvt : (TradingService.validate_order
        { req with order_id := oid, timestamp := ts, status := PENDING }).valid = true := by
      revert hval
      cases (TradingService.validate_order
        { req with order_id := oid, timestamp := ts, status := PENDING }).valid <;> simp
    have hr : ∃ r, risk = RiskResult.denied r := by
      rcases h with h | h | h | h | h | h
      · exact absurd (validate_order_fails _ (Or.inl h)).1 hval
      · exact absurd (validate_order_fails _ (Or.inr (Or.inl h))).1 hval
      · exact absurd (validate_order_fails _ (Or.inr (Or.inr (Or.inl h)))).1 hval
      · exact absurd (validate_order_fails _ (Or.inr (Or.inr (Or.inr (Or.inl h))))).1 hval
      · exact absurd (validate_order_fails _ (Or.inr (Or.inr (Or.inr (Or.inr h))))).1 hval
      · exact h
    rcases hr with ⟨r, hr⟩
    subst hr
    rw [PlaceOrder_denied st req oid ts exec r hvt]
    exact ⟨rfl, risk_message_ne_empty r, rfl⟩

/-- Witness for C1: spec scenario B, slippage 0.6 is rejected and the
store and cache stay empty. -/
theorem place_order_rejected_witness :
    (TradingService.PlaceOrder ⟨[], []⟩ orderReq1 "o1" 0 .allowed (.failure "e")).1.success = false
    ∧ (TradingService.PlaceOrder ⟨[], []⟩ orderReq1 "o1" 0 .allowed (.failure "e")).1.message ≠ ""
    ∧ (TradingService.PlaceOrder ⟨[], []⟩ orderReq1 "o1" 0 .allowed (.failure "e")).2 = ⟨[], []⟩ :=
  place_order_rejected_not_persisted ⟨[], []⟩ orderReq1 "o1" 0 .allowed (.failure "e")
    (Or.inr (Or.inr (Or.inl (by norm_num [orderReq1]))))

/-! ## C10: the pending status value disables the status filter -/

theorem mem_insertByTs (o a : Order) (l : List Order) :
    a ∈ TradingService.insertByTs o l ↔ a = o ∨ a ∈ l := by
  induction l with
  | nil => simp [TradingService.insertByTs]
  | cons x xs ih =>
    unfold TradingService.insertByTs
    split_ifs <;> (simp [ih]; try tauto)

theorem mem_sortByTsDesc (a : Order) (l : List Order) :
    a ∈ TradingService.sortByTsDesc l ↔ a ∈ l := by
  induction l with
  | nil => simp [TradingService.sortByTsDesc]
  | cons x xs ih =>
    rw [show TradingService.sortByTsDesc (x :: xs)
        = TradingService.insertByTs x (TradingService.sortByTsDesc xs) from rfl]
    rw [mem_insertByTs]
    simp [ih]

theorem mem_paginate (limit offset : Nat) (l : List Order) (a : Order)
    (h : a ∈ TradingService.paginate limit offset l) : a ∈ l := by
  unfold TradingService.paginate at h
  dsimp only at h
  split_ifs at h
  · exact List.drop_subset _ _ (List.take_subset _ _ h)
  · exact List.take_subset _ _ h
  · exact List.drop_subset _ _ h
  · exact h

/-- **C10** A `GetOrders` query with the pending status value 0 applies no
status filter at all — it returns exactly the wallet/time-filtered rows of
every status — so pending orders cannot be selected specifically, while
any nonzero status value filters exactly to that status. -/
theorem get_orders_pending_status_unfiltered (db : List Order) (w : String)
    (start_time end_time : Int) (limit offset : Nat) :
    (TradingService.get_orders db w 0 start_time end_time limit offset
      = TradingService.paginate limit offset (TradingService.sortByTsDesc
          (db.filter (fun o =>
            (o.wallet_address == w)
            && (start_time ≤ 0 || o.timestamp ≥ start_time)
            && (end_time ≤ 0 || o.timestamp ≤ end_time)))))
    ∧ ∀ s : Nat, s ≠ 0 →
        ∀ o ∈ TradingService.get_orders db w s start_time end_time limit offset,
          o.status = s := by
  constructor
  · unfold TradingService.get_orders
    congr 2
    apply List.filter_congr
    intro o _
    simp [TradingService.rowMatches]
  · intro s hs o ho
    unfold TradingService.get_orders at ho
    have h1 := mem_paginate _ _ _ _ ho
    rw [mem_sortByTsDesc, List.mem_filter] at h1
    have h2 := h1.2
    unfold TradingService.rowMatches at h2
    simp [hs] at h2
    tauto

/-! ## C2: order status transitions -/

theorem applyUpdate_order_id (o row : Order) :
    (TradingService.applyUpdate o row).order_id = row.order_id := by
  unfold TradingService.applyUpdate
  split_ifs <;> rfl

theorem applyUpdate_status (o row : Order) :
    (TradingService.applyUpdate o row).status
      = if row.order_id == o.order_id then o.status else row.status := by
  unfold TradingService.applyUpdate
  split_ifs <;> rfl

theorem dbFind_map_applyUpdate (db : List Order) (o : Order) (k : String) :
    dbFind (db.map (TradingService.applyUpdate o)) k
      = (dbFind db k).map (TradingService.applyUpdate o) := by
  induction db with
  | nil => rfl
  | cons a t ih =>
    unfold dbFind at ih ⊢
    simp only [List.map_cons, List.find?_cons]
    rw [applyUpdate_order_id]
    cases h : (a.order_id == k) <;> simp [h, ih]

theorem dbFind_append_left (db1 db2 : List Order) (k : String) (row : Order)
    (h : dbFind db1 k = some row) : dbFind (db1 ++ db2) k = some row := by
  unfold dbFind at h ⊢
  simp
  exact Or.inl h

theorem dbFind_id (db : List Order) (k : String) (row : Order)
    (h : dbFind db k = some row) : row.order_id = k := by
  unfold dbFind at h
  have h2 := List.find?_some h
  simpa using h2

theorem statusInDb_update_order (st : TradingState) (o : Order) (k : String) :
    statusInDb (TradingService.update_order st o) k
      = (dbFind st.db k).map (fun row =>
          if row.order_id == o.order_id then o.status else row.status) := by
  unfold statusInDb TradingService.update_order
  dsimp only
  rw [dbFind_map_applyUpdate]
  cases h : dbFind st.db k <;> simp [applyUpdate_status]

theorem statusInCache_update_order (st : TradingState) (o : Order) (k : String) :
    statusInCache (TradingService.update_order st o) k
      = if k = o.order_id then some o.status else statusInCache st k := by
  unfold statusInCache TradingService.update_order
  dsimp only
  by_cases hk : k = o.order_id
  · rw [if_pos hk, hk, assocGet_assocSet_self]
    rfl
  · rw [if_neg hk, assocGet_assocSet_ne _ _ _ _ hk]

theorem get_order_cases (st : TradingState) (oid : String) :
    (∃ o, assocGet st.cache oid = some o ∧ TradingService.get_order st oid = (some o, st))
    ∨ (assocGet st.cache oid = none ∧ ∃ o, dbFind st.db oid = some o ∧
        TradingService.get_order st oid
          = (some o, { st with cache := assocSet st.cache oid o }))
    ∨ (assocGet st.cache oid = none ∧ dbFind st.db oid = none ∧
        TradingService.get_order st oid = (none, st)) := by
  cases hc : assocGet st.cache oid with
  | some o => exact Or.inl ⟨o, rfl, by simp [TradingService.get_order, hc]⟩
  | none =>
    cases hd : dbFind st.db oid with
    | some o =>
      exact Or.inr (Or.inl ⟨rfl, o, rfl, by simp [TradingService.get_order, hc, hd]⟩)
    | none => exact Or.inr (Or.inr ⟨rfl, rfl, by simp [TradingService.get_order, hc, hd]⟩)

/-- Cancelling an order that is not pending fails and leaves the stored
rows (hence every stored status) unchanged, and re-reading the order
returns it with its old status. -/
theorem cancel_non_pending_noop (st : TradingState) (oid : String) (o : Order)
    (hg : (TradingService.get_order st oid).1 = some o) (hs : o.status ≠ PENDING) :
    (TradingService.CancelOrder st oid).1.success = false
    ∧ (TradingService.CancelOrder st oid).2.db = st.db
    ∧ (TradingService.get_order (TradingService.CancelOrder st oid).2 oid).1 = some o := by
  rcases get_order_cases st oid with ⟨o2, hc, hgo⟩ | ⟨hc, o2, hd, hgo⟩ | ⟨hc, hd, hgo⟩
  · have ho2 : o2 = o := by rw [hgo] at hg; exact Option.some.inj hg
    have hs2 : o2.status ≠ PENDING := by rw [ho2]; exact hs
    have hcan : TradingService.CancelOrder st oid
        = ({ success := false, message := "Order cannot be cancelled" }, st) := by
      unfold TradingService.CancelOrder
      rw [hgo]
      simp [hs2]
    rw [hcan]
    exact ⟨rfl, rfl, hg⟩
  · have ho2 : o2 = o := by rw [hgo] at hg; exact Option.some.inj hg
    have hs2 : o2.status ≠ PENDING := by rw [ho2]; exact hs
    have hcan : TradingService.CancelOrder st oid
        = ({ success := false, message := "Order cannot be cancelled" },
           { db := st.db, cache := assocSet st.cache oid o2 }) := by
      unfold TradingService.CancelOrder
      rw [hgo]
      simp [hs2]
    rw [hcan]
    refine ⟨rfl, rfl, ?_⟩
    simp [TradingService.get_order, assocGet_assocSet_self, ho2]
  · rw [hgo] at hg
    simp at hg

theorem statusInCache_store_order (st : TradingState) (o : Order) (k : String) :
    statusInCache (TradingService.store_order st o) k
      = if k = o.order_id then some o.status else statusInCache st k := by
  unfold statusInCache TradingService.store_order
  dsimp only
  by_cases hk : k = o.order_id
  · rw [if_pos hk, hk, assocGet_assocSet_self]
    rfl
  · rw [if_neg hk, assocGet_assocSet_ne _ _ _ _ hk]

theorem PlaceOrder_success_state (st : TradingState) (req : Order) (oid : String)
    (ts : Int) (sig : String) (price amt : ℚ) (cu : Nat) (cost : ℚ)
    (h : (TradingService.validate_order
        { req with order_id := oid, timestamp := ts, status := PENDING }).valid = true) :
    (TradingService.PlaceOrder st req oid ts .allowed (.success sig price amt cu cost)).2
      = TradingService.update_order
          (TradingService.store_order st
            { req with order_id := oid, timestamp := ts, status := PENDING })
          { req with
            order_id := oid, timestamp := ts, status := EXECUTED,
            signature := sig, executed_price := price, executed_amount := amt } := by
  unfold TradingService.PlaceOrder
  simp [h]

theorem PlaceOrder_failure_state (st : TradingState) (req : Order) (oid : String)
    (ts : Int) (err : String)
    (h : (TradingService.validate_order
        { req with order_id := oid, timestamp := ts, status := PENDING }).valid = true) :
    (TradingService.PlaceOrder st req oid ts .allowed (.failure err)).2
      = TradingService.update_order
          (TradingService.store_order st
            { req with order_id := oid, timestamp := ts, status := PENDING })
          { req with order_id := oid, timestamp := ts, status := FAILED } := by
  unfold TradingService.PlaceOrder
  simp [h]

theorem CancelOrder_pending_state (st : TradingState) (oid : String) (o : Order)
    (st1 : TradingState)
    (hgo : TradingService.get_order st oid = (some o, st1)) (hp : o.status = PENDING) :
    TradingService.CancelOrder st oid
      = ({ success := true, message := "Order cancelled successfully" },
         TradingService.update_order st1 { o with status := CANCELLED }) := by
  unfold TradingService.CancelOrder
  rw [hgo]
  simp [hp]

theorem CancelOrder_not_found_state (st : TradingState) (oid : String)
    (hgo : TradingService.get_order st oid = (none, st)) :
    TradingService.CancelOrder st oid
      = ({ success := false, message := "Order not found" }, st) := by
  unfold TradingService.CancelOrder
  rw [hgo]

/-- After an accepted `PlaceOrder`, every previously stored row with a
different id keeps its status. -/
theorem statusInDb_place_accepted (st : TradingState) (req2 fin : Order)
    (heq : fin.order_id = req2.order_id) (k : String) (row : Order)
    (hrow : dbFind st.db k = some row) (hk : k ≠ req2.order_id) :
    statusInDb (TradingService.update_order (TradingService.store_order st req2) fin) k
      = some row.status := by
  rw [statusInDb_update_order]
  have hap : dbFind (TradingService.store_order st req2).db k = some row := by
    show dbFind (st.db ++ [req2]) k = some row
    exact dbFind_append_left st.db [req2] k row hrow
  rw [hap]
  have hid := dbFind_id st.db k row hrow
  have hfalse : (row.order_id == fin.order_id) = false := by
    rw [heq, hid]
    simp [hk]
  have hfp : ¬ row.order_id = fin.order_id := by simpa using hfalse
  simp [hfp]

theorem db_status_step (op : TradingOp) (st : TradingState)
    (hco : coherent st) (hfr : opFresh op st) (oid : String) (σ σ' : Nat)
    (h1 : statusInDb st oid = some σ)
    (h2 : statusInDb (applyOp op st).2 oid = some σ')
    (hne : σ ≠ σ') :
    σ = PENDING ∧ (σ' = EXECUTED ∨ σ' = FAILED ∨ σ' = CANCELLED) := by
  cases op with
  | place req oid0 ts risk exec =>
    obtain ⟨hfd, hfc⟩ := hfr
    have happ : (applyOp (TradingOp.place req oid0 ts risk exec) st)
        = TradingService.PlaceOrder st req oid0 ts risk exec := rfl
    rw [happ] at h2
    have hoid : oid ≠ oid0 := by
      intro e
      rw [e, hfd] at h1
      exact Option.noConfusion h1
    obtain ⟨row, hrow, hσ⟩ : ∃ row, dbFind st.db oid = some row ∧ row.status = σ := by
      unfold statusInDb at h1
      exact Option.map_eq_some'.mp h1
    by_cases hval : (TradingService.validate_order
        { req with order_id := oid0, timestamp := ts, status := PENDING }).valid = false
    · rw [PlaceOrder_invalid st req oid0 ts risk exec hval] at h2
      unfold statusInDb at h2
      dsimp only at h2
      rw [hrow] at h2
      simp at h2
      exact (hne (by rw [← hσ, h2])).elim
    · have hvt : (TradingService.validate_order
          { req with order_id := oid0, timestamp := ts, status := PENDING }).valid = true := by
        revert hval
        cases (TradingService.validate_order
          { req with order_id := oid0, timestamp := ts, status := PENDING }).valid <;> simp
      cases risk with
      | denied r =>
        rw [PlaceOrder_denied st req oid0 ts exec r hvt] at h2
        unfold statusInDb at h2
        dsimp only at h2
        rw [hrow] at h2
        simp at h2
        exact (hne (by rw [← hσ, h2])).elim
      | allowed =>
        cases exec with
        | success sig price amt cu cost =>
          rw [PlaceOrder_success_state st req oid0 ts sig price amt cu cost hvt] at h2
          rw [statusInDb_place_accepted st
            { req with order_id := oid0, timestamp := ts, status := PENDING }
            { req with
              order_id := oid0, timestamp := ts, status := EXECUTED,
              signature := sig, executed_price := price, executed_amount := amt }
            rfl oid row hrow (by exact hoid)] at h2
          exact (hne (by rw [← hσ]; exact Option.some.inj h2)).elim
        | failure err =>
          rw [PlaceOrder_failure_state st req oid0 ts err hvt] at h2
          rw [statusInDb_place_accepted st
            { req with order_id := oid0, timestamp := ts, status := PENDING }
            { req with order_id := oid0, timestamp := ts, status := FAILED }
            rfl oid row hrow (by exact hoid)] at h2
          exact (hne (by rw [← hσ]; exact Option.some.inj h2)).elim
  | cancel oid0 =>
    have happ : (applyOp (TradingOp.cancel oid0) st)
        = TradingService.CancelOrder st oid0 := rfl
    rw [happ] at h2
    rcases get_order_cases st oid0 with ⟨o, hcch, hgo⟩ | ⟨hcch, o, hdb, hgo⟩ | ⟨hcch, hdb, hgo⟩
    · by_cases hp : o.status = PENDING
      · obtain ⟨hoido, hdbo⟩ := hco oid0 o hcch
        rw [CancelOrder_pending_state st oid0 o st hgo hp] at h2
        rw [statusInDb_update_order] at h2
        by_cases he : oid = oid0
        · subst he
          unfold statusInDb at h1
          rw [hdbo] at h1 h2
          simp [hoido] at h1 h2
          refine ⟨by rw [← h1, hp], Or.inr (Or.inr ?_)⟩
          rw [← h2]
        · obtain ⟨row, hrow, hσ⟩ : ∃ row, dbFind st.db oid = some row ∧ row.status = σ := by
            unfold statusInDb at h1
            exact Option.map_eq_some'.mp h1
          rw [hrow] at h2
          have hid := dbFind_id st.db oid row hrow
          have hfalse : (row.order_id == ({ o with status := CANCELLED } : Order).order_id)
              = false := by
            show (row.order_id == o.order_id) = false
            rw [hid, hoido]
            simp [he]
          have hfp : ¬ row.order_id = o.order_id := by simpa using hfalse
          simp [hfp] at h2
          exact (hne (by rw [← hσ, h2])).elim
      · have hnp := cancel_non_pending_noop st oid0 o (by rw [hgo]) hp
        unfold statusInDb at h1 h2
        rw [hnp.2.1] at h2
        rw [h1] at h2
        exact (hne (Option.some.inj h2)).elim
    · have hoido : o.order_id = oid0 := dbFind_id st.db oid0 o hdb
      by_cases hp : o.status = PENDING
      · rw [CancelOrder_pending_state st oid0 o
            { st with cache := assocSet st.cache oid0 o } hgo hp] at h2
        rw [statusInDb_update_order] at h2
        dsimp only at h2
        by_cases he : oid = oid0
        · subst he
          unfold statusInDb at h1
          rw [hdb] at h1 h2
          simp [hoido] at h1 h2
          refine ⟨by rw [← h1, hp], Or.inr (Or.inr ?_)⟩
          rw [← h2]
        · obtain ⟨row, hrow, hσ⟩ : ∃ row, dbFind st.db oid = some row ∧ row.status = σ := by
            unfold statusInDb at h1
            exact Option.map_eq_some'.mp h1
          rw [hrow] at h2
          have hid := dbFind_id st.db oid row hrow
          have hfalse : (row.order_id == ({ o with status := CANCELLED } : Order).order_id)
              = false := by
            show (row.order_id == o.order_id) = false
            rw [hid, hoido]
            simp [he]
          have hfp : ¬ row.order_id = o.order_id := by simpa using hfalse
          simp [hfp] at h2
          exact (hne (by rw [← hσ, h2])).elim
      · have hnp := cancel_non_pending_noop st oid0 o (by rw [hgo]) hp
        unfold statusInDb at h1 h2
        rw [hnp.2.1] at h2
        rw [h1] at h2
        exact (hne (Option.some.inj h2)).elim
    · rw [CancelOrder_not_found_state st oid0 hgo] at h2
      unfold statusInDb at h1 h2
      dsimp only at h2
      rw [h1] at h2
      exact (hne (Option.some.inj h2)).elim

theorem cache_status_step (op : TradingOp) (st : TradingState)
    (hco : coherent st) (hfr : opFresh op st) (oid : String) (σ σ' : Nat)
    (h1 : statusInCache st oid = some σ)
    (h2 : statusInCache (applyOp op st).2 oid = some σ')
    (hne : σ ≠ σ') :
    σ = PENDING ∧ (σ' = EXECUTED ∨ σ' = FAILED ∨ σ' = CANCELLED) := by
  cases op with
  | place req oid0 ts risk exec =>
    obtain ⟨hfd, hfc⟩ := hfr
    have happ : (applyOp (TradingOp.place req oid0 ts risk exec) st)
        = TradingService.PlaceOrder st req oid0 ts risk exec := rfl
    rw [happ] at h2
    have hoid : oid ≠ oid0 := by
      intro e
      rw [e, hfc] at h1
      exact Option.noConfusion h1
    by_cases hval : (TradingService.validate_order
        { req with order_id := oid0, timestamp := ts, status := PENDING }).valid = false
    · rw [PlaceOrder_invalid st req oid0 ts risk exec hval] at h2
      dsimp only at h2
      rw [h1] at h2
      exact (hne (Option.some.inj h2)).elim
    · have hvt : (TradingService.validate_order
          { req with order_id := oid0, timestamp := ts, status := PENDING }).valid = true := by
        revert hval
        cases (TradingService.validate_order
          { req with order_id := oid0, timestamp := ts, status := PENDING }).valid <;> simp
      cases risk with
      | denied r =>
        rw [PlaceOrder_denied st req oid0 ts exec r hvt] at h2
        dsimp only at h2
        rw [h1] at h2
        exact (hne (Option.some.inj h2)).elim
      | allowed =>
        cases exec with
        | success sig price amt cu cost =>
          rw [PlaceOrder_success_state st req oid0 ts sig price amt cu cost hvt] at h2
          rw [statusInCache_update_order, statusInCache_store_order] at h2
          simp [hoid] at h2
          rw [h1] at h2
          exact (hne (Option.some.inj h2)).elim
        | failure err =>
          rw [PlaceOrder_failure_state st req oid0 ts err hvt] at h2
          rw [statusInCache_update_order, statusInCache_store_order] at h2
          simp [hoid] at h2
          rw [h1] at h2
          exact (hne (Option.some.inj h2)).elim
  | cancel oid0 =>
    have happ : (applyOp (TradingOp.cancel oid0) st)
        = TradingService.CancelOrder st oid0 := rfl
    rw [happ] at h2
    rcases get_order_cases st oid0 with ⟨o, hcch, hgo⟩ | ⟨hcch, o, hdb, hgo⟩ | ⟨hcch, hdb, hgo⟩
    · by_cases hp : o.status = PENDING
      · obtain ⟨hoido, hdbo⟩ := hco oid0 o hcch
        rw [CancelOrder_pending_state st oid0 o st hgo hp] at h2
        rw [statusInCache_update_order] at h2
        by_cases he : oid = oid0
        · subst he
          unfold statusInCache at h1
          rw [hcch] at h1
          simp at h1
          simp [hoido] at h2
          exact ⟨by rw [← h1, hp], Or.inr (Or.inr h2.symm)⟩
        · have hfp : ¬ oid = ({ o with status := CANCELLED } : Order).order_id := by
            simpa [hoido] using he
          rw [if_neg hfp] at h2
          rw [h1] at h2
          exact (hne (Option.some.inj h2)).elim
      · have hcan : TradingService.CancelOrder st oid0
            = ({ success := false, message := "Order cannot be cancelled" }, st) := by
          unfold TradingService.CancelOrder
          rw [hgo]
          simp [hp]
        rw [hcan] at h2
        dsimp only at h2
        rw [h1] at h2
        exact (hne (Option.some.inj h2)).elim
    · have hoido : o.order_id = oid0 := dbFind_id st.db oid0 o hdb
      by_cases hp : o.status = PENDING
      · rw [CancelOrder_pending_state st oid0 o
            { st with cache := assocSet st.cache oid0 o } hgo hp] at h2
        rw [statusInCache_update_order] at h2
        by_cases he : oid = oid0
        · subst he
          unfold statusInCache at h1
          rw [hcch] at h1
          exact Option.noConfusion h1
        · have hfp : ¬ oid = ({ o with status := CANCELLED } : Order).order_id := by
            simpa [hoido] using he
          rw [if_neg hfp] at h2
          unfold statusInCache at h1 h2
          dsimp only at h2
          rw [assocGet_assocSet_ne _ _ _ _ he] at h2
          rw [h1] at h2
          exact (hne (Option.some.inj h2)).elim
      · have hcan : TradingService.CancelOrder st oid0
            = ({ success := false, message := "Order cannot be cancelled" },
               { st with cache := assocSet st.cache oid0 o }) := by
          unfold TradingService.CancelOrder
          rw [hgo]
          simp [hp]
        rw [hcan] at h2
        by_cases he : oid = oid0
        · subst he
          unfold statusInCache at h1
          rw [hcch] at h1
          exact Option.noConfusion h1
        · unfold statusInCache at h1 h2
          dsimp only at h2
          rw [assocGet_assocSet_ne _ _ _ _ he] at h2
          rw [h1] at h2
          exact (hne (Option.some.inj h2)).elim
    · rw [CancelOrder_not_found_state st oid0 hgo] at h2
      dsimp only at h2
      rw [h1] at h2
      exact (hne (Option.some.inj h2)).elim

/-- **C2** Across every trading-service operation, a stored or cached
order's status changes only from pending (0) to executed (1), failed (2)
or cancelled (3) — never out of a terminal status — and `CancelOrder`
applied to a non-pending order fails, leaves the stored rows unchanged,
and re-reads the order with its old status. -/
theorem order_status_transitions (op : TradingOp) (st : TradingState)
    (hco : coherent st) (hfr : opFresh op st) :
    (∀ oid σ σ', statusInDb st oid = some σ →
        statusInDb (applyOp op st).2 oid = some σ' → σ ≠ σ' →
        σ = PENDING ∧ (σ' = EXECUTED ∨ σ' = FAILED ∨ σ' = CANCELLED))
    ∧ (∀ oid σ σ', statusInCache st oid = some σ →
        statusInCache (applyOp op st).2 oid = some σ' → σ ≠ σ' →
        σ = PENDING ∧ (σ' = EXECUTED ∨ σ' = FAILED ∨ σ' = CANCELLED))
    ∧ (∀ oid o, (TradingService.get_order st oid).1 = some o → o.status ≠ PENDING →
        (TradingService.CancelOrder st oid).1.success = false
        ∧ (TradingService.CancelOrder st oid).2.db = st.db
        ∧ (TradingService.get_order (TradingService.CancelOrder st oid).2 oid).1 = some o) :=
  ⟨fun oid σ σ' h1 h2 hne => db_status_step op st hco hfr oid σ σ' h1 h2 hne,
   fun oid σ σ' h1 h2 hne => cache_status_step op st hco hfr oid σ σ' h1 h2 hne,
   fun oid o hg hs => cancel_non_pending_noop st oid o hg hs⟩

/-- Witness for C2: cancelling the stored executed order fails and leaves
its status untouched. -/
theorem order_status_transitions_witness :
    (TradingService.CancelOrder ⟨[orderRowE], []⟩ "b").1.success = false
    ∧ (TradingService.CancelOrder ⟨[orderRowE], []⟩ "b").2.db = [orderRowE]
    ∧ (TradingService.get_order (TradingService.CancelOrder ⟨[orderRowE], []⟩ "b").2 "b").1
        = some orderRowE :=
  (order_status_transitions (.cancel "b") ⟨[orderRowE], []⟩
      (by intro k o h; simp [assocGet] at h) trivial).2.2 "b" orderRowE
    (by decide) (by decide)

/-- Witness for C10: with one pending and one executed row, the status-0
query returns both, and the status-1 query returns only executed rows. -/
theorem get_orders_pending_witness :
    orderRowE.status = 1
    ∧ orderRowP ∈ TradingService.get_orders [orderRowP, orderRowE] "w" 0 0 0 0 0
    ∧ orderRowE ∈ TradingService.get_orders [orderRowP, orderRowE] "w" 0 0 0 0 0 :=
  ⟨(get_orders_pending_status_unfiltered [orderRowP, orderRowE] "w" 0 0 0 0).2 1
      (by decide) orderRowE (by decide),
   by decide, by decide⟩

end TradingBot
